import Mathlib

/-!
Verification of the batter-dashboard core computation: the filtering,
metric and coordinate-mapping pipeline of `batter_dashboard.py`, embedded
shallowly.  Records are rows of the delivery table; optional columns are
`Option` fields; pandas floats are modelled as rationals and the run count
as an integer.
-/

/-- One row of the delivery table.  Optional columns (which may hold NaN in
the source data frame) are `Option` fields; `runs` is always present. -/
structure DeliveryRecord where
  battingTeam : Option String
  batter : Option String
  bowlerType : Option String
  runs : Int
  extra : Option String
  wicket : Option String
  fieldX : Option ℚ
  fieldY : Option ℚ
  arrivalLine : Option ℚ
  arrivalHeight : Option ℚ
deriving DecidableEq, Repr

/-- The fixed style-to-category dictionary `bowling_type_mapping` of
`load_data`. -/
def bowlingTypeTable : List (String × String) :=
  [("LLB", "Spin"), ("LOB", "Spin"), ("RLB", "Spin"), ("ROB", "Spin"),
   ("LF", "Pace"), ("LFM", "Pace"), ("LM", "Pace"),
   ("RF", "Pace"), ("RFM", "Pace"), ("RM", "Pace")]

/-- Lookup of a bowler-style code in the fixed table; codes outside the
table yield `none`, like `Series.map` on a dict produces NaN. -/
def bowlingTypeMapping (code : String) : Option String :=
  bowlingTypeTable.lookup code

/-- The derived `Bowling Type` column: a null bowler style or an unmapped
code both give a null category. -/
def bowlingCat (r : DeliveryRecord) : Option String :=
  r.bowlerType.bind bowlingTypeMapping

/-- The sidebar facet selections that drive the record filter (the runs
selection only feeds the wagon wheel, not the filter). -/
structure FilterSelection where
  teams : List String
  batters : List String
  bowling : List String
deriving DecidableEq, Repr

/-- Pandas `Series.isin` on an optional value: a null never matches a list
of selection strings. -/
def facetPass (sel : List String) (v : Option String) : Bool :=
  match v with
  | some s => sel.contains s
  | none => false

/-- The filter cascade of the APPLY FILTERS section: each facet with a
non-empty (truthy) selection restricts by `isin`; the bowling facet tests
the derived category. -/
def applyFilters (records : List DeliveryRecord) (sel : FilterSelection) :
    List DeliveryRecord :=
  let f1 := if sel.teams.isEmpty then records
    else records.filter (fun r => facetPass sel.teams r.battingTeam)
  let f2 := if sel.batters.isEmpty then f1
    else f1.filter (fun r => facetPass sel.batters r.batter)
  if sel.bowling.isEmpty then f2
  else f2.filter (fun r => facetPass sel.bowling (bowlingCat r))

lemma facetPass_iff (sel : List String) (v : Option String) :
    facetPass sel v = true ↔ ∃ s, v = some s ∧ s ∈ sel := by
  cases v <;> simp [facetPass]

lemma mem_stepFilter (xs : List DeliveryRecord) (sel : List String)
    (p : DeliveryRecord → Bool) (r : DeliveryRecord) :
    (r ∈ if sel.isEmpty then xs else xs.filter p) ↔
      r ∈ xs ∧ (sel ≠ [] → p r = true) := by
  cases sel with
  | nil => simp
  | cons a l => simp [List.mem_filter]

lemma mem_applyFilters (records : List DeliveryRecord)
    (sel : FilterSelection) (r : DeliveryRecord) :
    r ∈ applyFilters records sel ↔
      r ∈ records ∧
      (sel.teams ≠ [] → facetPass sel.teams r.battingTeam = true) ∧
      (sel.batters ≠ [] → facetPass sel.batters r.batter = true) ∧
      (sel.bowling ≠ [] → facetPass sel.bowling (bowlingCat r) = true) := by
  unfold applyFilters
  rw [mem_stepFilter, mem_stepFilter, mem_stepFilter]
  tauto

/-- Python round-half-to-even of a rational to the nearest integer, the
rounding mode of the built-in `round`. -/
def roundHalfEven (q : ℚ) : ℤ :=
  if q - ⌊q⌋ < 1 / 2 then ⌊q⌋
  else if 1 / 2 < q - ⌊q⌋ then ⌊q⌋ + 1
  else if ⌊q⌋ % 2 = 0 then ⌊q⌋ else ⌊q⌋ + 1

/-- `round(q, 2)`: round to two decimal places, half to even. -/
def round2 (q : ℚ) : ℚ :=
  (roundHalfEven (q * 100) : ℚ) / 100

/-- `total_runs`: the sum of the `Runs` column over the filtered frame. -/
def total_runs (s : List DeliveryRecord) : Int :=
  (s.map (fun r => r.runs)).sum

/-- `astype(str)` of the `Extra` cell: a NaN prints as the string `nan`. -/
def extraStrRepr (e : Option String) : String :=
  match e with
  | some s => s
  | none => "nan"

/-- Substring occurrence test on character lists. -/
def listContainsSub (needle hay : List Char) : Bool :=
  match hay with
  | [] => needle.isEmpty
  | _ :: t => needle.isPrefixOf hay || listContainsSub needle t

/-- Character-wise lowercasing of a string's character list. -/
def lowerChars (l : List Char) : List Char := l.map Char.toLower

/-- Case-insensitive substring containment, the semantics of
`str.contains(needle, case=False)`. -/
def containsCI (needle s : String) : Bool :=
  listContainsSub (lowerChars needle.data) (lowerChars s.data)

/-- `balls_faced`: rows whose stringified `Extra` does not contain
`"Wide"` case-insensitively. -/
def balls_faced (s : List DeliveryRecord) : Nat :=
  (s.filter (fun r => !containsCI "Wide" (extraStrRepr r.extra))).length

/-- The pseudo-dismissal kinds excluded from the dismissal count. -/
def excludedWickets : List String :=
  ["Retired Hurt", "Retired - Not Out", "Absent"]

/-- `Series.isin` of the `Wicket` cell against the excluded kinds. -/
def wicketIsinExcluded (r : DeliveryRecord) : Bool :=
  match r.wicket with
  | some w => excludedWickets.contains w
  | none => false

/-- `dismissals_count`: rows with a non-null `Wicket` that is not an
excluded pseudo-dismissal. -/
def dismissals_count (s : List DeliveryRecord) : Nat :=
  (s.filter (fun r => r.wicket.isSome && !wicketIsinExcluded r)).length

/-- The batting-average cell: either a rounded numeric value or the
infinite sentinel shown when there is no dismissal. -/
inductive AverageValue where
  | finite (q : ℚ)
  | infiniteSentinel
deriving DecidableEq, Repr

/-- `batting_average` with its division-by-zero guard. -/
def batting_average (s : List DeliveryRecord) : AverageValue :=
  if dismissals_count s > 0 then
    .finite (round2 ((total_runs s : ℚ) / (dismissals_count s : ℚ)))
  else .infiniteSentinel

/-- `strike_rate` with its division-by-zero guard. -/
def strike_rate (s : List DeliveryRecord) : ℚ :=
  if balls_faced s > 0 then
    round2 ((total_runs s : ℚ) / (balls_faced s : ℚ) * 100)
  else 0

/-- `boundary_runs`: the run total over rows whose `Runs` is 4 or 6. -/
def boundary_runs (s : List DeliveryRecord) : Int :=
  ((s.filter (fun r => [(4 : Int), 6].contains r.runs)).map
    (fun r => r.runs)).sum

/-- `boundary_percentage` with its division-by-zero guard. -/
def boundary_percentage (s : List DeliveryRecord) : ℚ :=
  if total_runs s > 0 then
    round2 ((boundary_runs s : ℚ) / (total_runs s : ℚ) * 100)
  else 0

/-- The `wagon` frame: filtered rows whose runs are in the runs-to-display
selection, strictly positive, and whose field coordinates are present. -/
def wagonRecords (filtered : List DeliveryRecord) (selRuns : List Int) :
    List DeliveryRecord :=
  filtered.filter (fun r =>
    selRuns.contains r.runs && decide (r.runs > 0) &&
    r.fieldX.isSome && r.fieldY.isSome)

/-- The wagon-wheel loop body: each row becomes the far endpoint of a
segment from the origin, via `x = FieldX - 175`, `y = 175 - FieldY`,
tagged with its run value (which selects the trace colour). -/
def wagonSegments (filtered : List DeliveryRecord) (selRuns : List Int) :
    List ((ℚ × ℚ) × Int) :=
  (wagonRecords filtered selRuns).filterMap (fun r =>
    match r.fieldX, r.fieldY with
    | some fx, some fy => some ((fx - 175, 175 - fy), r.runs)
    | _, _ => none)

/-- The `caught` frame: filtered rows dismissed `Caught` with both field
coordinates present. -/
def caughtRecords (filtered : List DeliveryRecord) : List DeliveryRecord :=
  filtered.filter (fun r =>
    r.wicket == some "Caught" && r.fieldX.isSome && r.fieldY.isSome)

/-- The catch-map markers: `x_vals = FieldX - 175`, `y_vals = 175 - FieldY`
over the caught rows. -/
def catchPoints (filtered : List DeliveryRecord) : List (ℚ × ℚ) :=
  (caughtRecords filtered).filterMap (fun r =>
    match r.fieldX, r.fieldY with
    | some fx, some fy => some (fx - 175, 175 - fy)
    | _, _ => none)

/-- The centering transform the spec names for both field-coordinate maps. -/
def centerTransform (p : ℚ × ℚ) : ℚ × ℚ :=
  (p.1 - 175, 175 - p.2)

/-- Joint field coordinates of a row, when both are present. -/
def fieldCoords (r : DeliveryRecord) : Option (ℚ × ℚ) :=
  match r.fieldX, r.fieldY with
  | some fx, some fy => some (fx, fy)
  | _, _ => none

/-- The `beehive_data` frame: filtered rows with both arrival coordinates
present. -/
def beehive_data (filtered : List DeliveryRecord) : List DeliveryRecord :=
  filtered.filter (fun r => r.arrivalLine.isSome && r.arrivalHeight.isSome)

/-- The beehive `4 Runs` display series. -/
def beehiveFourSeries (filtered : List DeliveryRecord) :
    List DeliveryRecord :=
  (beehive_data filtered).filter (fun r => r.runs == 4)

/-- The beehive `6 Runs` display series. -/
def beehiveSixSeries (filtered : List DeliveryRecord) :
    List DeliveryRecord :=
  (beehive_data filtered).filter (fun r => r.runs == 6)

/-- The beehive `Dismissal` display series. -/
def beehiveWicketSeries (filtered : List DeliveryRecord) :
    List DeliveryRecord :=
  (beehive_data filtered).filter (fun r => r.wicket.isSome)

/-- First scenario record: a four with a recorded landing position. -/
def scenarioRec1 : DeliveryRecord :=
  { battingTeam := some "T", batter := some "B", bowlerType := some "RF",
    runs := 4, extra := none, wicket := none,
    fieldX := some 200, fieldY := some 150,
    arrivalLine := none, arrivalHeight := none }

/-- Second scenario record: a six with no wicket and no further fields. -/
def scenarioRec2 : DeliveryRecord :=
  { battingTeam := some "T", batter := some "B", bowlerType := some "RF",
    runs := 6, extra := none, wicket := none,
    fieldX := none, fieldY := none,
    arrivalLine := none, arrivalHeight := none }

/-- Third scenario record: a caught dismissal for no runs, with the catch
position recorded. -/
def scenarioRec3 : DeliveryRecord :=
  { battingTeam := some "T", batter := some "B", bowlerType := some "RF",
    runs := 0, extra := none, wicket := some "Caught",
    fieldX := some 100, fieldY := some 200,
    arrivalLine := none, arrivalHeight := none }

/-- The three-record end-to-end scenario input. -/
def scenarioRecords : List DeliveryRecord :=
  [scenarioRec1, scenarioRec2, scenarioRec3]

/-- The all-values-selected facet state for the scenario: every team,
batter and bowling-type value present in the widgets is selected. -/
def scenarioSel : FilterSelection :=
  { teams := ["T"], batters := ["B"], bowling := ["Spin", "Pace"] }

/-- The default full runs-to-display selection. -/
def scenarioRuns : List Int := [1, 2, 3, 4, 5, 6]

/-- The filtered frame of the scenario. -/
def scenarioFiltered : List DeliveryRecord :=
  applyFilters scenarioRecords scenarioSel

/-- A wide delivery carrying one run, used to exercise the balls-faced
exclusion. -/
def wideBallRec : DeliveryRecord :=
  { battingTeam := some "T", batter := some "B", bowlerType := some "RF",
    runs := 1, extra := some "Wide", wicket := none,
    fieldX := none, fieldY := none,
    arrivalLine := none, arrivalHeight := none }

/-- A four that is also flagged as a dismissal, with arrival coordinates
recorded, used to exercise the overlapping beehive series. -/
def overlapRec : DeliveryRecord :=
  { battingTeam := some "T", batter := some "B", bowlerType := some "RF",
    runs := 4, extra := none, wicket := some "Bowled",
    fieldX := none, fieldY := none,
    arrivalLine := some 0, arrivalHeight := some 1 }

/-- A delivery whose bowler-style code is outside the fixed lookup table. -/
def unmappedRec : DeliveryRecord :=
  { battingTeam := some "T", batter := some "B", bowlerType := some "XYZ",
    runs := 0, extra := none, wicket := none,
    fieldX := none, fieldY := none,
    arrivalLine := none, arrivalHeight := none }

lemma roundHalfEven_nonneg (q : ℚ) (h : 0 ≤ q) : 0 ≤ roundHalfEven q := by
  have hf : (0 : ℤ) ≤ ⌊q⌋ := Int.le_floor.2 (by exact_mod_cast h)
  unfold roundHalfEven
  split_ifs <;> omega

lemma roundHalfEven_le (q : ℚ) (n : ℤ) (h : q ≤ (n : ℚ)) :
    roundHalfEven q ≤ n := by
  have hfl : ⌊q⌋ ≤ n := by
    have h2 := Int.floor_le_floor h
    simpa using h2
  unfold roundHalfEven
  split_ifs with h1 h2 h3
  · exact hfl
  all_goals first
  | exact hfl
  | · have hq : 1 / 2 ≤ q - ⌊q⌋ := le_of_not_lt h1
      have hfq : (⌊q⌋ : ℚ) ≤ q := Int.floor_le q
      have hlt : (⌊q⌋ : ℚ) < (n : ℚ) := by linarith
      have hltZ : ⌊q⌋ < n := by exact_mod_cast hlt
      omega

lemma boundary_runs_nonneg (s : List DeliveryRecord)
    (h : ∀ r ∈ s, 0 ≤ r.runs) : 0 ≤ boundary_runs s := by
  apply List.sum_nonneg
  intro x hx
  rcases List.mem_map.1 hx with ⟨r, hr, rfl⟩
  exact h r (List.mem_of_mem_filter hr)

lemma boundary_runs_le_total (s : List DeliveryRecord)
    (h : ∀ r ∈ s, 0 ≤ r.runs) : boundary_runs s ≤ total_runs s := by
  induction s with
  | nil => simp [boundary_runs, total_runs]
  | cons a t ih =>
    have ha := h a (by simp)
    have iht := ih (fun r hr => h r (by simp [hr]))
    by_cases hp : ([(4 : Int), 6].contains a.runs) = true
    · simp only [boundary_runs, total_runs, List.filter_cons, hp, if_true,
        List.map_cons, List.sum_cons] at iht ⊢
      omega
    · simp only [boundary_runs, total_runs, List.filter_cons, hp,
        Bool.false_eq_true, if_false, List.map_cons, List.sum_cons] at iht ⊢
      omega

/-- C1 (counterexample): on the three-record scenario with every facet
selection open, the shot-trajectory series holds exactly one segment, not
the two the claim asserts: the runs-6 record carries no field coordinates
and the wagon filter requires both. -/
theorem c1_wagon_two_segments_false :
    (wagonSegments scenarioFiltered scenarioRuns).length = 1 ∧
    (wagonSegments scenarioFiltered scenarioRuns).length ≠ 2 := by
  decide

/-- C1 (amended): on the three-record scenario with every facet selection
open, the pipeline yields totalRuns = 10, dismissalsCount = 1,
battingAverage = 10, a shot-trajectory series with exactly one segment
(the runs-4 record; the runs-6 record has no field coordinates), and a
catch-location series with exactly one point at (-75, -25). -/
theorem c1_scenario_pipeline :
    total_runs scenarioFiltered = 10 ∧
    dismissals_count scenarioFiltered = 1 ∧
    batting_average scenarioFiltered = .finite 10 ∧
    (wagonSegments scenarioFiltered scenarioRuns).length = 1 ∧
    catchPoints scenarioFiltered = [(-75, -25)] := by
  have h1 : total_runs scenarioFiltered = 10 := by decide
  have h2 : dismissals_count scenarioFiltered = 1 := by decide
  refine ⟨h1, h2, ?_, by decide, ?_⟩
  · rw [batting_average, h1, h2]
    norm_num [round2, roundHalfEven]
  · simp [catchPoints, caughtRecords, scenarioFiltered, applyFilters,
      scenarioRecords, scenarioSel, scenarioRec1, scenarioRec2,
      scenarioRec3, facetPass, bowlingCat, bowlingTypeMapping,
      bowlingTypeTable, List.filter, List.filterMap]
    norm_num

/-- C2: a record is in the filtered subset iff it is in the input and, for
each facet with a non-empty selection, its facet value is a member of that
selection; hence the filtered subset is a subset of the input and equals
the full input when every facet selection is empty. -/
theorem c2_filter_characterisation (records : List DeliveryRecord)
    (sel : FilterSelection) :
    (∀ r, r ∈ applyFilters records sel ↔
      r ∈ records ∧
      (sel.teams ≠ [] → ∃ t, r.battingTeam = some t ∧ t ∈ sel.teams) ∧
      (sel.batters ≠ [] → ∃ b, r.batter = some b ∧ b ∈ sel.batters) ∧
      (sel.bowling ≠ [] → ∃ c, bowlingCat r = some c ∧ c ∈ sel.bowling)) ∧
    applyFilters records sel ⊆ records ∧
    (sel.teams = [] → sel.batters = [] → sel.bowling = [] →
      applyFilters records sel = records) := by
  refine ⟨fun r => ?_, fun r hr => ?_, fun h1 h2 h3 => ?_⟩
  · rw [mem_applyFilters]
    simp only [facetPass_iff]
  · exact ((mem_applyFilters records sel r).1 hr).1
  · simp [applyFilters, h1, h2, h3]

/-- C2 (witness): with every facet selection empty, the filtered subset is
the full one-record input. -/
theorem c2_filter_characterisation_witness :
    applyFilters [scenarioRec1]
      { teams := [], batters := [], bowling := [] } = [scenarioRec1] :=
  (c2_filter_characterisation [scenarioRec1]
    { teams := [], batters := [], bowling := [] }).2.2 rfl rfl rfl

/-- C3: the metric computations are total: zero dismissals give the
infinite average sentinel, zero balls faced give strike rate 0, and zero
total runs give boundary percentage 0 — never a division error. -/
theorem c3_division_guards (s : List DeliveryRecord) :
    (dismissals_count s = 0 → batting_average s = .infiniteSentinel) ∧
    (balls_faced s = 0 → strike_rate s = 0) ∧
    (total_runs s = 0 → boundary_percentage s = 0) := by
  refine ⟨fun h => ?_, fun h => ?_, fun h => ?_⟩ <;>
    simp [batting_average, strike_rate, boundary_percentage, h]

/-- C3 (witness): on the empty subset all three guards fire. -/
theorem c3_division_guards_witness :
    batting_average [] = .infiniteSentinel ∧
    strike_rate [] = 0 ∧ boundary_percentage [] = 0 :=
  ⟨(c3_division_guards []).1 rfl, (c3_division_guards []).2.1 rfl,
   (c3_division_guards []).2.2 rfl⟩

/-- C4: balls faced counts exactly the records whose extra does not
contain the substring "wide" case-insensitively, a null extra counting as
a faced ball; and a record with extra "Wide" is excluded from balls faced
while its runs still contribute to the run total. -/
theorem c4_balls_faced_characterisation (s : List DeliveryRecord) :
    balls_faced s = (s.filter (fun r =>
      match r.extra with
      | none => true
      | some e => !containsCI "wide" e)).length ∧
    (∀ r : DeliveryRecord, r.extra = some "Wide" →
      balls_faced (r :: s) = balls_faced s ∧
      total_runs (r :: s) = r.runs + total_runs s) := by
  constructor
  · unfold balls_faced
    congr 1
    apply List.filter_congr
    intro r _
    cases he : r.extra with
    | none =>
      simp only [extraStrRepr, he]
      decide
    | some e =>
      have hW : containsCI "Wide" e = containsCI "wide" e := by
        unfold containsCI
        have h : lowerChars "Wide".data = lowerChars "wide".data := by decide
        rw [h]
      simp [extraStrRepr, he, hW]
  · intro r hr
    have hw : containsCI "Wide" (extraStrRepr r.extra) = true := by
      rw [hr]
      decide
    constructor
    · simp [balls_faced, List.filter_cons, hw]
    · simp [total_runs]

/-- C4 (witness): one wide delivery with a run counts no ball faced but
adds its run to the total. -/
theorem c4_balls_faced_characterisation_witness :
    balls_faced [wideBallRec] = balls_faced [] ∧
    total_runs [wideBallRec] = wideBallRec.runs + total_runs [] :=
  (c4_balls_faced_characterisation []).2 wideBallRec rfl

/-- C5: the dismissal count is exactly the number of records whose wicket
is non-null and is none of "Retired Hurt", "Retired - Not Out", "Absent". -/
theorem c5_dismissals_characterisation (s : List DeliveryRecord) :
    dismissals_count s = (s.filter (fun r =>
      match r.wicket with
      | some w => decide (w ≠ "Retired Hurt" ∧ w ≠ "Retired - Not Out" ∧
          w ≠ "Absent")
      | none => false)).length := by
  unfold dismissals_count
  congr 1
  apply List.filter_congr
  intro r _
  cases hw : r.wicket with
  | none => simp [wicketIsinExcluded, hw]
  | some w =>
    simp only [wicketIsinExcluded, hw, excludedWickets, Option.isSome_some,
      Bool.true_and]
    by_cases h1 : w = "Retired Hurt" <;> by_cases h2 : w = "Retired - Not Out" <;>
      by_cases h3 : w = "Absent" <;> simp [h1, h2, h3]

/-- C6: whenever every run value in the subset is non-negative and the run
total is positive, the boundary-runs percentage lies in [0, 100]. -/
theorem c6_boundary_percentage_bounds (s : List DeliveryRecord)
    (h : ∀ r ∈ s, 0 ≤ r.runs) (ht : 0 < total_runs s) :
    0 ≤ boundary_percentage s ∧ boundary_percentage s ≤ 100 := by
  have hb0 : 0 ≤ boundary_runs s := boundary_runs_nonneg s h
  have hbt : boundary_runs s ≤ total_runs s := boundary_runs_le_total s h
  unfold boundary_percentage
  rw [if_pos ht]
  have htQ : (0 : ℚ) < (total_runs s : ℚ) := by exact_mod_cast ht
  have hq0 : 0 ≤ (boundary_runs s : ℚ) / (total_runs s : ℚ) * 100 := by
    apply mul_nonneg _ (by norm_num)
    apply div_nonneg _ (le_of_lt htQ)
    exact_mod_cast hb0
  unfold round2
  constructor
  · apply div_nonneg _ (by norm_num)
    exact_mod_cast roundHalfEven_nonneg _ (mul_nonneg hq0 (by norm_num))
  · rw [div_le_iff₀ (by norm_num : (0 : ℚ) < 100)]
    have hdiv : (boundary_runs s : ℚ) / (total_runs s : ℚ) ≤ 1 :=
      (div_le_one htQ).2 (by exact_mod_cast hbt)
    have h1 : (boundary_runs s : ℚ) / (total_runs s : ℚ) * 100 * 100 ≤
        ((10000 : ℤ) : ℚ) := by push_cast; nlinarith
    have h2 := roundHalfEven_le _ _ h1
    have h3 : ((roundHalfEven ((boundary_runs s : ℚ) / (total_runs s : ℚ) *
        100 * 100) : ℚ)) ≤ ((10000 : ℤ) : ℚ) := by exact_mod_cast h2
    push_cast at h3
    linarith

/-- C6 (witness): the single-record subset scoring a four has a positive
run total and its boundary percentage lies in [0, 100]. -/
theorem c6_boundary_percentage_bounds_witness :
    0 < total_runs [scenarioRec1] ∧
    0 ≤ boundary_percentage [scenarioRec1] ∧
    boundary_percentage [scenarioRec1] ≤ 100 :=
  ⟨by decide, c6_boundary_percentage_bounds [scenarioRec1]
    (by decide) (by decide)⟩

/-- C7: the wagon-wheel and catch-map mappings both apply the one
centering transform x' = fieldX - 175, y' = 175 - fieldY to every record
they map, and that transform sends (175, 175) to (0, 0). -/
theorem c7_shared_centering_transform (filtered : List DeliveryRecord)
    (selRuns : List Int) :
    wagonSegments filtered selRuns =
      (wagonRecords filtered selRuns).filterMap (fun r =>
        (fieldCoords r).map (fun p => (centerTransform p, r.runs))) ∧
    catchPoints filtered =
      (caughtRecords filtered).filterMap (fun r =>
        (fieldCoords r).map centerTransform) ∧
    centerTransform (175, 175) = (0, 0) := by
  refine ⟨?_, ?_, ?_⟩
  · unfold wagonSegments
    congr 1
    funext r
    rcases r with ⟨_, _, _, _, _, _, fx, fy, _, _⟩
    cases fx <;> cases fy <;> rfl
  · unfold catchPoints
    congr 1
    funext r
    rcases r with ⟨_, _, _, _, _, _, fx, fy, _, _⟩
    cases fx <;> cases fy <;> rfl
  · simp [centerTransform]

/-- C8: every filtered record with both arrival coordinates present lands
in each beehive display series whose predicate it satisfies (runs = 4,
runs = 6, wicket present); the series overlap rather than partition. -/
theorem c8_beehive_series_membership (filtered : List DeliveryRecord)
    (r : DeliveryRecord) (hmem : r ∈ filtered)
    (hl : r.arrivalLine.isSome = true)
    (hh : r.arrivalHeight.isSome = true) :
    (r.runs = 4 → r ∈ beehiveFourSeries filtered) ∧
    (r.runs = 6 → r ∈ beehiveSixSeries filtered) ∧
    (r.wicket.isSome = true → r ∈ beehiveWicketSeries filtered) := by
  refine ⟨fun h4 => ?_, fun h6 => ?_, fun hw => ?_⟩
  · simp [beehiveFourSeries, beehive_data, List.mem_filter, hmem, hl, hh, h4]
  · simp [beehiveSixSeries, beehive_data, List.mem_filter, hmem, hl, hh, h6]
  · simp [beehiveWicketSeries, beehive_data, List.mem_filter, hmem, hl, hh, hw]

/-- C8 (witness): a four that is also a dismissal appears in both the
four-runs series and the dismissal series at once. -/
theorem c8_beehive_series_membership_witness :
    overlapRec ∈ beehiveFourSeries [overlapRec] ∧
    overlapRec ∈ beehiveWicketSeries [overlapRec] := by
  obtain ⟨h4, _, hw⟩ := c8_beehive_series_membership [overlapRec] overlapRec
    (by simp) rfl rfl
  exact ⟨h4 rfl, hw rfl⟩

/-- C9: a record whose bowler-style code is outside the fixed lookup table
has a null derived bowling category, and it belongs to the filtered subset
exactly when the bowling-type selection is empty and the other facets pass
— so any non-empty bowling selection, the default {Spin, Pace} included,
excludes it. -/
theorem c9_unmapped_bowler_excluded (records : List DeliveryRecord)
    (sel : FilterSelection) (r : DeliveryRecord)
    (hout : ∀ code, r.bowlerType = some code →
      bowlingTypeMapping code = none) :
    bowlingCat r = none ∧
    (r ∈ applyFilters records sel ↔
      r ∈ records ∧ sel.bowling = [] ∧
      (sel.teams ≠ [] → facetPass sel.teams r.battingTeam = true) ∧
      (sel.batters ≠ [] → facetPass sel.batters r.batter = true)) := by
  have hCat : bowlingCat r = none := by
    unfold bowlingCat
    cases hb : r.bowlerType with
    | none => rfl
    | some code => exact hout code hb
  refine ⟨hCat, ?_⟩
  rw [mem_applyFilters, hCat]
  have hfp : facetPass sel.bowling none = false := rfl
  rw [hfp]
  cases hbl : sel.bowling with
  | nil => simp
  | cons a l => simp

/-- C9 (witness): the record with style code "XYZ" gets a null category
and is dropped by the default full bowling selection {Spin, Pace}. -/
theorem c9_unmapped_bowler_excluded_witness :
    bowlingCat unmappedRec = none ∧
    unmappedRec ∉ applyFilters [unmappedRec] scenarioSel := by
  obtain ⟨h1, h2⟩ := c9_unmapped_bowler_excluded [unmappedRec] scenarioSel
    unmappedRec (fun code hc => by
      injection hc with h
      subst h
      decide)
  refine ⟨h1, fun hmem => ?_⟩
  have h3 := (h2.1 hmem).2.1
  exact absurd h3 (by simp [scenarioSel])

/-- C10: an empty runs-to-display selection empties the wagon-wheel series
for every filtered input, because membership of the run value in the
selection is required unconditionally, unlike the facet filters. -/
theorem c10_empty_runs_selection_empties_wagon
    (filtered : List DeliveryRecord) :
    wagonRecords filtered [] = [] ∧ wagonSegments filtered [] = [] := by
  have h : wagonRecords filtered [] = [] := by
    simp [wagonRecords]
  exact ⟨h, by rw [wagonSegments, h]; rfl⟩
